import Mathlib

/-!
Shallow embedding of the automatic-differentiation and module-composition
engine of the compyute repository (and its earlier incarnation, walnut),
together with proofs about the embedded operations.

Numeric values are modelled over the rationals; machine floats are replaced
by exact arithmetic, which is the standard shallow embedding for this kind
of value-level specification.
-/

namespace Compyute

/-- Devices a tensor can live on (`compyute.engine.Device`). -/
inductive Device where
  | cpu
  | cuda
deriving DecidableEq, Repr

/-- Shallow model of `compyute.base_tensor.Tensor`: an n-dimensional array
with a shape, flat data, a device tag, and an optional gradient slot
(the `grad` attribute used by `Module._set_dy`). -/
structure Tensor where
  shape : List Nat
  data : List ℚ
  device : Device := Device.cpu
  grad : Option (List ℚ) := none
deriving Repr

/-- Model of `tensor_functions.reshaping.reshape`: the result carries the target
shape and the same flat data. -/
def reshape (t : Tensor) (s : List Nat) : Tensor :=
  { t with shape := s }

/-- Shallow model of `compyute.nn.parameter.Parameter`: a trainable value,
an optionally-absent gradient, a `requires_grad` flag and a label. -/
structure Parameter where
  value : Tensor
  grad : Option Tensor := none
  requiresGrad : Bool := true
  label : String := ""
deriving Repr

/-- Shallow model of `compyute.nn.parameter.Buffer`: a named value with no
gradient. -/
structure Buffer where
  value : Tensor
  label : String := ""
deriving Repr

/-- The per-instance state of `compyute.nn.modules.module.Module`:
the retained output `y`, the captured backward continuation `_backward`
(a function from the output gradient to an optional input gradient),
the label, device, and the three mode flags, plus the parameters and
buffers the module owns (the `parameters`/`buffers` registries). -/
structure ModuleState where
  y : Option Tensor
  bwd : Option (Tensor → Option Tensor)
  label : String
  device : Device
  retainValues : Bool
  training : Bool
  trainable : Bool
  params : List Parameter
  buffers : List Buffer

namespace Module

/-- Model of `Module.reset`: clears the retained output, the captured continuation,
and every owned parameter gradient. -/
def reset (M : ModuleState) : ModuleState :=
  { M with
    y := none
    bwd := none
    params := M.params.map (fun p => { p with grad := none }) }

/-- Model of `Module.set_training`. -/
def set_training (M : ModuleState) (value : Bool) : ModuleState :=
  { M with training := value }

/-- Model of `Module._set_y`: when `retain_values` is set, stores a copy of the
output (overwriting the data of a previously retained output in place). -/
def setY (M : ModuleState) (y : Tensor) : ModuleState :=
  if M.retainValues then
    match M.y with
    | none => { M with y := some y }
    | some old => { M with y := some { old with data := y.data, shape := y.shape } }
  else M

/-- Model of `Module._set_dy`: when `retain_values` is set and an output is
retained, stores the output gradient on it. -/
def setDy (M : ModuleState) (dy : Tensor) : ModuleState :=
  if M.retainValues then
    match M.y with
    | none => M
    | some old => { M with y := some { old with grad := some dy.data } }
  else M

/-- Model of `Module.backward`: raises an error naming the module label when the
module is not in training mode; otherwise records the output gradient via
`_set_dy` and either invokes the captured continuation or, when no
continuation is stored, returns the output gradient unchanged. -/
def backward (M : ModuleState) (dy : Tensor) :
    Except String (ModuleState × Option Tensor) :=
  if M.training = false then
    Except.error (M.label ++ " is not in training mode.")
  else
    match (setDy M dy).bwd with
    | some f => Except.ok (setDy M dy, f dy)
    | none => Except.ok (setDy M dy, some dy)

end Module

namespace Reshape

/-- Model of `Reshape.forward`: reshapes to `(x.shape[0],) + output_shape` and, in
training mode only, stores a continuation reshaping the output gradient
back to the input shape.  Outside training mode the stored continuation is
left untouched. -/
def forward (M : ModuleState) (outputShape : List Nat) (x : Tensor) :
    Tensor × ModuleState :=
  let y := reshape x (x.shape.take 1 ++ outputShape)
  let M1 :=
    if M.training then { M with bwd := some (fun dy => some (reshape dy x.shape)) }
    else M
  (y, M1)

/-- Model of `Module.__call__` specialised to `Reshape`: runs forward, then stores
the output via `_set_y`. -/
def call (M : ModuleState) (outputShape : List Nat) (x : Tensor) :
    Tensor × ModuleState :=
  let fy := forward M outputShape x
  (fy.1, Module.setY fy.2 fy.1)

end Reshape

namespace Module

/-- Model of `Module.to_device`: returns unchanged when the target device equals
the current one; otherwise tags the module and every owned tensor
(retained output, buffers, parameters) with the new device.  Device
availability checking is environment-dependent and is not modelled. -/
def to_device (M : ModuleState) (d : Device) : ModuleState :=
  if d = M.device then M
  else
    { M with
      device := d
      y := M.y.map (fun t => { t with device := d })
      buffers := M.buffers.map (fun b => { b with value := { b.value with device := d } })
      params := M.params.map (fun p => { p with value := { p.value with device := d } }) }

end Module

/-- Model of `save_module`: moves the module to the CPU device, resets it, and
serializes it.  The `pickle.dump` into a file is modelled as producing the
serialized object graph itself (a pickle round trip reconstructs an equal
object graph). -/
def save_module (M : ModuleState) : ModuleState :=
  Module.reset (Module.to_device M Device.cpu)

/-- Model of `load_module`: deserializes a previously saved blob
(`pickle.load` modelled as the inverse of the identity serialization). -/
def load_module (blob : ModuleState) : ModuleState := blob

/-- Operations a caller can drive on a reshape module, for stating
state-machine invariants about the captured continuation. -/
inductive ModuleOp where
  | fwd (outputShape : List Nat) (x : Tensor)
  | reset
  | setTraining (b : Bool)

/-- One caller-driven step on a reshape module. -/
def Reshape.step (M : ModuleState) : ModuleOp → ModuleState
  | ModuleOp.fwd outputShape x => (Reshape.call M outputShape x).2
  | ModuleOp.reset => Module.reset M
  | ModuleOp.setTraining b => Module.set_training M b

end Compyute

namespace Walnut

/-- Matrices over the rationals, the value model for the walnut layers. -/
def Mat (m n : ℕ) : Type := Fin m → Fin n → ℚ

/-- Matrix product, the model for the numpy `@` operator. -/
def matMul {m k n : ℕ} (A : Mat m k) (B : Mat k n) : Mat m n :=
  fun i j => ∑ p, A i p * B p j

/-- Matrix transpose, the model for `.T` / `transpose((1, 0))`. -/
def transposeM {m n : ℕ} (A : Mat m n) : Mat n m :=
  fun i j => A j i

/-- Elementwise sum of two matrices. -/
def matAdd {m n : ℕ} (A B : Mat m n) : Mat m n :=
  fun i j => A i j + B i j

/-- The all-ones matrix. -/
def onesM (m n : ℕ) : Mat m n := fun _ _ => 1

/-- State of `walnut.nn.layers.parameter.Linear` restricted to the
two-dimensional input path of its `__call__`: the weight `w : (c_in, c_out)`
with its gradient slot, the bias `b : (c_out,)` with its gradient slot,
the `use_bias` switch and the training flag. -/
structure Linear (ci co : ℕ) where
  w : Mat ci co
  w_grad : Option (Mat ci co) := none
  b : Fin co → ℚ
  b_grad : Option (Fin co → ℚ) := none
  use_bias : Bool
  training : Bool

namespace Linear

/-- The forward computation of `Linear.__call__` on a 2-D input:
`y = x @ w`, plus the broadcast bias when `use_bias` is set. -/
def forward {ci co m : ℕ} (L : Linear ci co) (x : Mat m ci) : Mat m co :=
  let y := matMul x L.w
  if L.use_bias then fun i j => y i j + L.b j else y

/-- The backward closure built by `Linear.__call__` in training mode, for
a 2-D input `x` (so `dim = 2`, `w_ax = (1, 0)` and no extra summation):
returns the input gradient `dy @ w.T` and the state after the closure's
in-place writes, which OVERWRITE `w.grad` with `x.T @ dy` (plain
assignment, not `+=`) and `b.grad` with the column sums of `dy`. -/
def applyBackward {ci co m : ℕ} (L : Linear ci co) (x : Mat m ci)
    (dy : Mat m co) : Mat m ci × Linear ci co :=
  (matMul dy (transposeM L.w),
   { L with
     w_grad := some (matMul (transposeM x) dy)
     b_grad := if L.use_bias then some (fun j => ∑ i, dy i j) else L.b_grad })

end Linear

end Walnut

namespace Compyute

/-- Modelled from the spec: the gradient-write rule of the `Parameter`
class (the class itself, `compyute/nn/parameter.py`, is not among the
sources; only its callers are).  The spec fixes the rule as overwrite on
the first write since the last `reset` (slot absent) and accumulate on
subsequent writes, which is the behaviour the `+=` updates in
`Batchnorm1d.forward._backward` rely on. -/
def gradAdd {α : Type} [Add α] : Option α → α → Option α
  | none, v => some v
  | some g, v => some (g + v)

/-- The two gradient slots of a batchnorm layer
(`Batchnorm1d`'s parameters `w` and `b`). -/
structure BNGrads (α : Type) where
  wgrad : Option α := none
  bgrad : Option α := none

/-- The parameter-gradient writes performed by one invocation of
`Batchnorm1d.forward._backward`: `self.w.grad += dw` and
`self.b.grad += db`, with the `+=` semantics of `gradAdd`. -/
def bnBackwardWrites {α : Type} [Add α] (s : BNGrads α) (dw db : α) :
    BNGrads α :=
  { wgrad := gradAdd s.wgrad dw, bgrad := gradAdd s.bgrad db }

/-- The forward-time cache of `FMeanSquaredError`: the slots `y_pred` and
`dif` written by `forward` and read back by `backward`.  Tensors are
modelled as flat lists of rationals. -/
structure MSECache where
  y_pred : List ℚ
  dif : List ℚ

namespace FMeanSquaredError

/-- Model of `FMeanSquaredError.forward`: computes `dif = y_pred - y_true`, caches
`y_pred` and `dif`, and returns `mean(dif ** 2)`. -/
def forward (y_pred y_true : List ℚ) : MSECache × ℚ :=
  let dif := List.zipWith (fun a b => a - b) y_pred y_true
  ({ y_pred := y_pred, dif := dif },
   (dif.map (fun d => d ^ 2)).sum / (dif.length : ℚ))

/-- Model of `FMeanSquaredError.backward`: returns `dif * 2 / y_pred.size` read
from the cache. -/
def backward (c : MSECache) : List ℚ :=
  c.dif.map (fun d => d * 2 / (c.y_pred.length : ℚ))

end FMeanSquaredError

/-- The metric objects of `compyute.nn.metrics` (`Accuracy` and `R2`);
their numeric scores live in the excluded kernel layer, so they are
modelled as tags. -/
inductive Metric where
  | accuracy
  | r2
deriving DecidableEq, Repr

/-- Model of `get_metric_function` on a string key: returns the metric registered
under the key in `METRICS = ("accuracy", "r2")`, and raises a `ValueError`
naming the key otherwise. -/
def get_metric_function (metric : String) : Except String Metric :=
  if metric = "accuracy" then Except.ok Metric.accuracy
  else if metric = "r2" then Except.ok Metric.r2
  else Except.error ("Unknown metric function: " ++ metric ++ ".")

/-- The callback-local state of `EarlyStopping`: `state["best_loss"]`
(`none` models the initial `float("inf")`) and `state["best_params"]`. -/
structure ESState where
  bestLoss : Option ℚ := none
  bestParams : Option (List ℚ) := none

/-- The trainer as seen by the early-stopping callback: the named history
entries of `trainer.state`, the model parameters, and the abort flag. -/
structure Trainer where
  state : List (String × List ℚ)
  modelParams : List ℚ
  abort : Bool := false

/-- Dictionary lookup in `trainer.state`. -/
def lookupState (key : String) (st : List (String × List ℚ)) :
    Option (List ℚ) :=
  (st.find? (fun p => p.1 == key)).map Prod.snd

namespace EarlyStopping

/-- Model of `EarlyStopping.on_epoch`: checks that the target key is present in
`trainer.state` (raising a `ValueError` naming it otherwise), then reads
the `epoch_<target>` history (a missing dictionary key raises a `KeyError`
naming that key), records a new best loss and parameter snapshot when the
last history entry improves on the stored best, and, once the history is
longer than `patience` and the last `patience` entries all exceed the best
loss read at the top of the call, restores the best parameters (when
configured) and sets the trainer abort flag. -/
def on_epoch (patience : ℕ) (use_best_params : Bool) (target : String)
    (es : ESState) (tr : Trainer) : Except String (ESState × Trainer) :=
  if (tr.state.map Prod.fst).contains target = false then
    Except.error (target ++ " not found in trainer state.")
  else
    match lookupState ("epoch_" ++ target) tr.state with
    | none => Except.error ("KeyError: epoch_" ++ target)
    | some hist =>
      match hist.getLast? with
      | none => Except.error "IndexError: list index out of range"
      | some last =>
        let best := es.bestLoss
        let improved : Bool :=
          match best with
          | none => true
          | some bl => decide (last < bl)
        let es1 :=
          if improved then
            { bestLoss := some last
              bestParams := if use_best_params then some tr.modelParams else es.bestParams }
          else es
        if hist.length ≤ patience then Except.ok (es1, tr)
        else
          let noImprovement : Bool :=
            (List.range patience).all (fun j =>
              match best with
              | none => false
              | some bl => decide (bl < hist.getD (hist.length - 1 - j) 0))
          if noImprovement then
            if use_best_params then
              match es1.bestParams with
              | none => Except.error "KeyError: best_params"
              | some ps =>
                Except.ok (es1, { tr with modelParams := ps, abort := true })
            else Except.ok (es1, { tr with abort := true })
          else Except.ok (es1, tr)

end EarlyStopping

/-- The loss history `[1.0, 0.9, 0.95, 0.97, 0.99]` of scenario C. -/
def scenarioLosses : List ℚ :=
  [1, mkRat 9 10, mkRat 19 20, mkRat 97 100, mkRat 99 100]

/-- One epoch of the early-stopping scenario: the training loop appends
the epoch loss to the histories stored under `"loss"` and `"epoch_loss"`,
updates the model parameters to their value after that epoch, and invokes
the callback (patience 3, best-parameter restoration enabled,
target `"loss"`). -/
def scenarioEpoch (params : ℕ → List ℚ) (losses : List ℚ) (k : ℕ)
    (acc : ESState × Trainer) : Except String (ESState × Trainer) :=
  let hist := losses.take k
  EarlyStopping.on_epoch 3 true "loss" acc.1
    { state := [("loss", hist), ("epoch_loss", hist)]
      modelParams := params k
      abort := acc.2.abort }

/-- Drives the early-stopping callback once per epoch for `k` epochs. -/
def runScenario (params : ℕ → List ℚ) (losses : List ℚ) : ℕ →
    Except String (ESState × Trainer)
  | 0 => Except.ok ({}, { state := [], modelParams := params 0 })
  | k + 1 =>
    match runScenario params losses k with
    | Except.error e => Except.error e
    | Except.ok acc => scenarioEpoch params losses (k + 1) acc

/-- The abort flag of a scenario outcome, when the run did not raise. -/
def abortAfter (r : Except String (ESState × Trainer)) : Option Bool :=
  r.toOption.map (fun p => p.2.abort)

/-- The model parameters of a scenario outcome, when the run did not
raise. -/
def paramsAfter (r : Except String (ESState × Trainer)) :
    Option (List ℚ) :=
  r.toOption.map (fun p => p.2.modelParams)

namespace DataLoader

/-- Model of `DataLoader.__len__`: `max(1, n // batch_size)`. -/
def numSteps (n bs : ℕ) : ℕ := max 1 (n / bs)

/-- The batches yielded by one full iteration of `DataLoader.__call__`
with shuffling disabled and no target tensor: `n_steps` slices
`x[i*b : (i+1)*b]` with `b = min(batch_size, n)`, followed by the
remainder `x[n_trunc:]` unless `drop_remaining` is set or nothing
remains. -/
def batches {α : Type} (x : List α) (bs : ℕ) (dropRemaining : Bool) :
    List (List α) :=
  let n := x.length
  let steps := numSteps n bs
  let b := min bs n
  let ntrunc := steps * b
  let main := (List.range steps).map (fun i => (x.drop (i * b)).take b)
  if dropRemaining = false ∧ ntrunc < n then main ++ [x.drop ntrunc]
  else main

/-- The `(x, y)` batch pairs yielded by `DataLoader.__call__` with
shuffling disabled and a target tensor: both tensors are sliced with the
same index ranges, computed from `x`. -/
def batchesXY {α β : Type} (x : List α) (y : List β) (bs : ℕ)
    (dropRemaining : Bool) : List (List α × List β) :=
  let n := x.length
  let steps := numSteps n bs
  let b := min bs n
  let ntrunc := steps * b
  let main := (List.range steps).map
    (fun i => ((x.drop (i * b)).take b, (y.drop (i * b)).take b))
  if dropRemaining = false ∧ ntrunc < n then
    main ++ [(x.drop ntrunc, y.drop ntrunc)]
  else main

end DataLoader

/-- A freshly constructed module in training mode with no parameters
(the state of `Reshape((4,), training=True)` right after `__init__`). -/
def freshReshapeState : ModuleState :=
  { y := none
    bwd := none
    label := "Reshape"
    device := Device.cpu
    retainValues := false
    training := true
    trainable := true
    params := []
    buffers := [] }

/-- A concrete 2x2 tensor of ones. -/
def t22 : Tensor := { shape := [2, 2], data := [1, 1, 1, 1] }

/-- A module state owning one parameter whose gradient slot is set. -/
def paramState : ModuleState :=
  { freshReshapeState with
    params := [{ value := t22, grad := some t22, requiresGrad := true,
                 label := "w" }] }

end Compyute

namespace Walnut

/-- A concrete 1-in 1-out linear layer with unit weight, bias disabled,
in training mode. -/
def linear11 : Linear 1 1 :=
  { w := fun _ _ => 1, b := fun _ => 0, use_bias := false, training := true }

end Walnut

open Compyute

lemma setY_bwd (M : ModuleState) (y : Tensor) :
    (Module.setY M y).bwd = M.bwd := by
  unfold Module.setY
  split
  · split <;> rfl
  · rfl

lemma setY_training (M : ModuleState) (y : Tensor) :
    (Module.setY M y).training = M.training := by
  unfold Module.setY
  split
  · split <;> rfl
  · rfl

lemma clearGrad_idem (ps : List Parameter) :
    (ps.map (fun p => { p with grad := none })).map
        (fun p => { p with grad := none }) =
      ps.map (fun p => { p with grad := none }) := by
  rw [List.map_map]
  rfl

/-- C8: after `reset()` the retained output is absent, the continuation is
absent, and every owned parameter gradient is absent; `reset()` is
idempotent; and a reset module accepts a fresh forward call (a reshape
forward on the reset state computes its output). -/
theorem C8_reset_postcondition_idempotent :
    ∀ (M : ModuleState) (os : List Nat) (x : Tensor),
      (Module.reset M).y = none ∧
      (Module.reset M).bwd = none ∧
      (∀ p ∈ (Module.reset M).params, p.grad = none) ∧
      Module.reset (Module.reset M) = Module.reset M ∧
      (Reshape.call (Module.reset M) os x).1 =
        reshape x (x.shape.take 1 ++ os) := by
  intro M os x
  refine ⟨rfl, rfl, ?_, ?_, rfl⟩
  · intro p hp
    simp only [Module.reset, List.mem_map] at hp
    obtain ⟨q, _, rfl⟩ := hp
    rfl
  · unfold Module.reset
    simp only [clearGrad_idem]

/-- C8 witness: the theorem applied to a module owning one parameter with
a set gradient slot, with the membership hypothesis discharged for that
parameter. -/
theorem C8_reset_postcondition_idempotent_witness :
    (Module.reset paramState).y = none ∧
      (Module.reset paramState).bwd = none ∧
      ({ value := t22, grad := none, requiresGrad := true,
          label := "w" } : Parameter).grad = none ∧
      Module.reset (Module.reset paramState) = Module.reset paramState ∧
      (Reshape.call (Module.reset paramState) [4] t22).1 =
        reshape t22 (t22.shape.take 1 ++ [4]) :=
  ⟨(C8_reset_postcondition_idempotent paramState [4] t22).1,
   (C8_reset_postcondition_idempotent paramState [4] t22).2.1,
   (C8_reset_postcondition_idempotent paramState [4] t22).2.2.1 _
     (List.mem_singleton.mpr rfl),
   (C8_reset_postcondition_idempotent paramState [4] t22).2.2.2.1,
   (C8_reset_postcondition_idempotent paramState [4] t22).2.2.2.2⟩

/-- C6: the backward of the mean-squared-error operation, run on the cache
populated by the paired forward, returns exactly
`2 * (y_pred - y_true) / size(y_pred)` elementwise. -/
theorem C6_mse_backward_exact :
    ∀ (y_pred y_true : List ℚ),
      y_pred.length = y_true.length →
      FMeanSquaredError.backward (FMeanSquaredError.forward y_pred y_true).1 =
        List.zipWith (fun a b => 2 * (a - b) / (y_pred.length : ℚ))
          y_pred y_true := by
  intro yp yt _
  unfold FMeanSquaredError.forward FMeanSquaredError.backward
  simp only [List.map_zipWith]
  congr 1
  funext a b
  ring

/-- C6 witness: the theorem applied at `y_pred = [1, 2]`,
`y_true = [0, 0]`. -/
theorem C6_mse_backward_exact_witness :
    ([1, 2] : List ℚ).length = ([0, 0] : List ℚ).length ∧
      FMeanSquaredError.backward
          (FMeanSquaredError.forward [1, 2] [0, 0]).1 =
        List.zipWith (fun a b => 2 * (a - b) / (([1, 2] : List ℚ).length : ℚ))
          [1, 2] [0, 0] :=
  ⟨by decide, C6_mse_backward_exact [1, 2] [0, 0] (by decide)⟩

/-- C2 counterexample: a module in training mode with no captured
continuation (fresh, never forwarded).  The claim requires `backward` to
raise in this case; instead it silently returns the output gradient
unchanged (a pass-through gradient). -/
theorem C2_counterexample :
    freshReshapeState.training = true ∧
      freshReshapeState.bwd = none ∧
      Module.backward freshReshapeState t22 =
        Except.ok (freshReshapeState, some t22) :=
  ⟨rfl, rfl, rfl⟩

/-- C2 amended: `backward` raises an error, which always names the module
label, if and only if the module is not in training mode; in training mode
with no captured continuation it returns the output gradient unchanged
instead of raising; and after a training-mode reshape forward, a
successful backward returns a gradient with the shape of the original
input. -/
theorem C2_mode_gating_amended :
    ∀ (M : ModuleState) (dy : Tensor),
      (Module.backward M dy =
          Except.error (M.label ++ " is not in training mode.") ↔
        M.training = false) ∧
      (∀ e, Module.backward M dy = Except.error e →
        e = M.label ++ " is not in training mode.") ∧
      (M.training = true → M.bwd = none →
        Module.backward M dy = Except.ok (Module.setDy M dy, some dy)) ∧
      (∀ (os : List Nat) (x dy2 : Tensor), M.training = true →
        ∃ M2 g,
          Module.backward (Reshape.call M os x).2 dy2 =
            Except.ok (M2, some g) ∧
          g.shape = x.shape) := by
  intro M dy
  refine ⟨?_, ?_, ?_, ?_⟩
  · constructor
    · intro h
      by_contra hT
      have hT2 : M.training = true := by
        cases hM : M.training
        · exact absurd hM hT
        · rfl
      unfold Module.backward at h
      rw [hT2] at h
      simp only [Bool.true_eq_false, if_false] at h
      rcases hB : (Module.setDy M dy).bwd with _ | f <;> rw [hB] at h <;>
        exact Except.noConfusion h
    · intro h
      unfold Module.backward
      rw [h]
      simp
  · intro e h
    unfold Module.backward at h
    by_cases hT : M.training = false
    · rw [if_pos hT] at h
      exact (Except.error.injEq _ _).mp h.symm |>.symm ▸ rfl
    · rw [if_neg hT] at h
      rcases hB : (Module.setDy M dy).bwd with _ | f <;> rw [hB] at h <;>
        exact Except.noConfusion h
  · intro hT hB
    unfold Module.backward
    rw [hT]
    have hB2 : (Module.setDy M dy).bwd = none := by
      unfold Module.setDy
      split
      · split <;> exact hB
      · exact hB
    simp only [Bool.true_eq_false, if_false, hB2]
  · intro os x dy2 hT
    have hbwd : ((Reshape.call M os x).2).bwd =
        some (fun g => some (reshape g x.shape)) := by
      unfold Reshape.call
      rw [setY_bwd]
      unfold Reshape.forward
      simp only [hT, if_true]
    have htr : ((Reshape.call M os x).2).training = true := by
      unfold Reshape.call
      rw [setY_training]
      unfold Reshape.forward
      simp only [hT, if_true]
    refine ⟨Module.setDy (Reshape.call M os x).2 dy2,
      reshape dy2 x.shape, ?_, rfl⟩
    unfold Module.backward
    rw [htr]
    have hB2 : (Module.setDy (Reshape.call M os x).2 dy2).bwd =
        some (fun g => some (reshape g x.shape)) := by
      unfold Module.setDy
      split
      · split <;> exact hbwd
      · exact hbwd
    simp only [Bool.true_eq_false, if_false, hB2]

/-- C2 witness: the amended theorem applied to the fresh training-mode
module with a concrete gradient. -/
theorem C2_mode_gating_amended_witness :
    Module.backward freshReshapeState t22 =
      Except.ok (Module.setDy freshReshapeState t22, some t22) :=
  (C2_mode_gating_amended freshReshapeState t22).2.2.1 rfl rfl

/-- C3 counterexample: a training-mode forward captures a continuation;
a subsequent forward executed with training false leaves that stale
continuation in place, so the continuation is non-absent although the most
recent forward call was not executed in training mode. -/
theorem C3_counterexample :
    (Reshape.step
        (Reshape.step
          (Reshape.step freshReshapeState (ModuleOp.fwd [4] t22))
          (ModuleOp.setTraining false))
        (ModuleOp.fwd [4] t22)).training = false ∧
      (Reshape.step
          (Reshape.step
            (Reshape.step freshReshapeState (ModuleOp.fwd [4] t22))
            (ModuleOp.setTraining false))
          (ModuleOp.fwd [4] t22)).bwd.isSome = true :=
  ⟨rfl, rfl⟩

/-- C3 amended: one-step characterization of the stored continuation.
After a forward call the continuation is present iff the module is in
training mode or a continuation was already present (an inference forward
does not clear a stale continuation); `reset` clears it; `set_training`
leaves it unchanged.  Hence the continuation is non-absent iff some
forward call since the last reset executed in training mode. -/
theorem C3_continuation_step_amended :
    ∀ (M : ModuleState) (op : ModuleOp),
      (Reshape.step M op).bwd.isSome =
        (match op with
         | ModuleOp.fwd _ _ => M.training || M.bwd.isSome
         | ModuleOp.reset => false
         | ModuleOp.setTraining _ => M.bwd.isSome) := by
  intro M op
  cases op with
  | fwd os x =>
      show ((Reshape.call M os x).2).bwd.isSome = (M.training || M.bwd.isSome)
      unfold Reshape.call
      rw [setY_bwd]
      unfold Reshape.forward
      cases hT : M.training with
      | false => simp
      | true => simp
  | reset => rfl
  | setTraining b => rfl

/-- C4 counterexample: a module saved while in training mode loads with
its training flag still true, not false as the claim requires. -/
theorem C4_counterexample :
    freshReshapeState.training = true ∧
      (load_module (save_module freshReshapeState)).training = true ∧
      (true ≠ false) :=
  ⟨rfl, rfl, by decide⟩

/-- C4 amended: `save` moves every owned tensor to the CPU device and
clears all transient state via `reset` before serializing, and `load`
reconstructs an equivalent module tree (same label, parameter and buffer
shapes, values and labels) on the CPU with no stale continuation, no
retained output and absent parameter gradients; the training flag is
preserved as it was at save time rather than forced to false. -/
theorem C4_save_load_amended :
    ∀ (M : ModuleState),
      load_module (save_module M) =
        Module.reset (Module.to_device M Device.cpu) ∧
      (load_module (save_module M)).y = none ∧
      (load_module (save_module M)).bwd = none ∧
      (∀ p ∈ (load_module (save_module M)).params, p.grad = none) ∧
      (load_module (save_module M)).label = M.label ∧
      (load_module (save_module M)).training = M.training ∧
      (load_module (save_module M)).device = Device.cpu ∧
      (load_module (save_module M)).params.map
          (fun p => (p.value.shape, p.value.data, p.label)) =
        M.params.map (fun p => (p.value.shape, p.value.data, p.label)) ∧
      (load_module (save_module M)).buffers.map
          (fun b => (b.value.shape, b.value.data, b.label)) =
        M.buffers.map (fun b => (b.value.shape, b.value.data, b.label)) := by
  intro M
  have hload : load_module (save_module M) =
      Module.reset (Module.to_device M Device.cpu) := rfl
  refine ⟨hload, rfl, rfl, ?_, ?_, ?_, ?_, ?_, ?_⟩
  · intro p hp
    rw [hload] at hp
    simp only [Module.reset, List.mem_map] at hp
    obtain ⟨q, _, rfl⟩ := hp
    rfl
  · rw [hload]
    show (Module.to_device M Device.cpu).label = M.label
    unfold Module.to_device
    split <;> rfl
  · rw [hload]
    show (Module.to_device M Device.cpu).training = M.training
    unfold Module.to_device
    split <;> rfl
  · rw [hload]
    show (Module.to_device M Device.cpu).device = Device.cpu
    unfold Module.to_device
    split
    · next h => exact h.symm
    · rfl
  · rw [hload]
    show ((Module.to_device M Device.cpu).params.map
          (fun p => { p with grad := none })).map
        (fun p => (p.value.shape, p.value.data, p.label)) =
      M.params.map (fun p => (p.value.shape, p.value.data, p.label))
    unfold Module.to_device
    split
    · rw [List.map_map]
      rfl
    · rw [List.map_map, List.map_map]
      rfl
  · rw [hload]
    show (Module.to_device M Device.cpu).buffers.map
        (fun b => (b.value.shape, b.value.data, b.label)) =
      M.buffers.map (fun b => (b.value.shape, b.value.data, b.label))
    unfold Module.to_device
    split
    · rfl
    · rw [List.map_map]
      rfl

/-- C4 witness: the amended save/load theorem applied to the module owning
one parameter with a set gradient slot, with the membership hypothesis
discharged for that parameter. -/
theorem C4_save_load_amended_witness :
    load_module (save_module paramState) =
      Module.reset (Module.to_device paramState Device.cpu) ∧
    (load_module (save_module paramState)).y = none ∧
    (load_module (save_module paramState)).bwd = none ∧
    ({ value := t22, grad := none, requiresGrad := true,
        label := "w" } : Parameter).grad = none ∧
    (load_module (save_module paramState)).training = paramState.training :=
  ⟨(C4_save_load_amended paramState).1,
   (C4_save_load_amended paramState).2.1,
   (C4_save_load_amended paramState).2.2.1,
   (C4_save_load_amended paramState).2.2.2.1 _ (List.mem_singleton.mpr rfl),
   (C4_save_load_amended paramState).2.2.2.2.2.1⟩

/-- C1 counterexample: the walnut `Linear` layer writes its weight
gradient with plain assignment, so after a second forward/backward pass
without an intervening reset the gradient slot holds only the second
call's gradient (here 1), not the sum of the two isolated contributions
(here 1 + 1 = 2). -/
theorem C1_counterexample :
    ((Walnut.Linear.applyBackward
          (Walnut.Linear.applyBackward Walnut.linear11
              (Walnut.onesM 1 1) (Walnut.onesM 1 1)).2
          (Walnut.onesM 1 1) (Walnut.onesM 1 1)).2.w_grad.map
        (fun g => g 0 0)) = some 1 ∧
      ((Walnut.Linear.applyBackward Walnut.linear11
            (Walnut.onesM 1 1) (Walnut.onesM 1 1)).2.w_grad.map
          (fun g => g 0 0)) = some 1 ∧
      (1 : ℚ) + 1 ≠ 1 := by
  refine ⟨?_, ?_, by norm_num⟩ <;>
    simp [Walnut.Linear.applyBackward, Walnut.matMul, Walnut.transposeM,
      Walnut.onesM, Walnut.linear11]

/-- C1 amended: the gradient-write rule is not uniform across modules.
The walnut `Linear` layer overwrites on every backward call: after two
passes the slot equals the second pass's isolated gradient, independent of
the first.  Batchnorm-style modules update with `+=` against an
absent-initialized slot, and for them two backward writes since a reset
accumulate to the sum of the isolated contributions. -/
theorem C1_accumulation_amended :
    (∀ (ci co m : ℕ) (L : Walnut.Linear ci co) (x1 : Walnut.Mat m ci)
        (dy1 : Walnut.Mat m co) (x2 : Walnut.Mat m ci)
        (dy2 : Walnut.Mat m co),
      (Walnut.Linear.applyBackward
            (Walnut.Linear.applyBackward L x1 dy1).2 x2 dy2).2.w_grad =
          some (Walnut.matMul (Walnut.transposeM x2) dy2) ∧
        (Walnut.Linear.applyBackward L x2 dy2).2.w_grad =
          some (Walnut.matMul (Walnut.transposeM x2) dy2)) ∧
    (∀ (α : Type) [Add α] (dw1 db1 dw2 db2 : α),
      bnBackwardWrites (bnBackwardWrites ({} : BNGrads α) dw1 db1) dw2 db2 =
        { wgrad := some (dw1 + dw2), bgrad := some (db1 + db2) }) := by
  constructor
  · intro ci co m L x1 dy1 x2 dy2
    exact ⟨rfl, rfl⟩
  · intro α _ dw1 db1 dw2 db2
    rfl

/-- C5: the end-to-end fully-connected scenario.  For a 3-in 2-out linear
unit with bias disabled and weights `W`, applied in training mode to an
all-ones `(4, 3)` input: the forward output's every row is the vector of
column sums of `W`; backward with an all-ones `(4, 2)` output gradient
writes the weight gradient `input^T @ ones`, the `(3, 2)` matrix whose
every entry is 4, and returns the input gradient `ones @ W^T`, whose
`(i, j)` entry is the `j`-th row sum of `W`. -/
theorem C5_linear_end_to_end :
    ∀ (W : Walnut.Mat 3 2),
      (∀ (i : Fin 4) (j : Fin 2),
        Walnut.Linear.forward
            { w := W, b := fun _ => 0, use_bias := false, training := true }
            (Walnut.onesM 4 3) i j = ∑ k, W k j) ∧
      (Walnut.Linear.applyBackward
            { w := W, b := fun _ => 0, use_bias := false, training := true }
            (Walnut.onesM 4 3) (Walnut.onesM 4 2)).2.w_grad =
        some (fun _ _ => 4) ∧
      (∀ (i : Fin 4) (j : Fin 3),
        (Walnut.Linear.applyBackward
            { w := W, b := fun _ => 0, use_bias := false, training := true }
            (Walnut.onesM 4 3) (Walnut.onesM 4 2)).1 i j = ∑ k, W j k) := by
  intro W
  refine ⟨?_, ?_, ?_⟩
  · intro i j
    simp [Walnut.Linear.forward, Walnut.matMul, Walnut.onesM]
  · simp only [Walnut.Linear.applyBackward]
    congr 1
    funext i j
    simp [Walnut.matMul, Walnut.transposeM, Walnut.onesM,
      Finset.sum_const, Finset.card_univ]
  · intro i j
    simp [Walnut.Linear.applyBackward, Walnut.matMul, Walnut.transposeM,
      Walnut.onesM]

/-- C7: driving the early-stopping callback (patience 3, best-parameter
restoration enabled) once per epoch over the loss history
`[1.0, 0.9, 0.95, 0.97, 0.99]`: the abort flag is not set after epochs
1 through 4, is set exactly after the 5th epoch, and the model parameters
are then the snapshot taken at epoch 2, whichever values the parameters
took at each epoch. -/
theorem C7_early_stopping_scenario :
    ∀ (params : ℕ → List ℚ),
      abortAfter (runScenario params scenarioLosses 1) = some false ∧
      abortAfter (runScenario params scenarioLosses 2) = some false ∧
      abortAfter (runScenario params scenarioLosses 3) = some false ∧
      abortAfter (runScenario params scenarioLosses 4) = some false ∧
      abortAfter (runScenario params scenarioLosses 5) = some true ∧
      paramsAfter (runScenario params scenarioLosses 5) = some (params 2) := by
  intro params
  exact ⟨rfl, rfl, rfl, rfl, rfl, rfl⟩

/-- C9: lookups of named collaborators by string.  `get_metric_function`
raises an error naming the metric string for any name outside
`accuracy` and `r2`, and succeeds on those two; the early-stopping
callback's per-epoch read of its target metric either fails naming the
target key when it is missing from the trainer state, fails naming the
`epoch_`-prefixed history key when that dictionary entry is missing, or
finds the entry it reads (and, while the history is no longer than the
patience, returns without error). -/
theorem C9_unknown_identifier :
    (∀ s : String, s ≠ "accuracy" → s ≠ "r2" →
      get_metric_function s =
        Except.error ("Unknown metric function: " ++ s ++ ".")) ∧
    get_metric_function "accuracy" = Except.ok Metric.accuracy ∧
    get_metric_function "r2" = Except.ok Metric.r2 ∧
    (∀ (patience : ℕ) (ub : Bool) (t : String) (es : ESState) (tr : Trainer),
      ((tr.state.map Prod.fst).contains t = false →
        EarlyStopping.on_epoch patience ub t es tr =
          Except.error (t ++ " not found in trainer state.")) ∧
      ((tr.state.map Prod.fst).contains t = true →
        lookupState ("epoch_" ++ t) tr.state = none →
        EarlyStopping.on_epoch patience ub t es tr =
          Except.error ("KeyError: epoch_" ++ t)) ∧
      (∀ hist, (tr.state.map Prod.fst).contains t = true →
        lookupState ("epoch_" ++ t) tr.state = some hist →
        hist ≠ [] → hist.length ≤ patience →
        ∃ es1, EarlyStopping.on_epoch patience ub t es tr =
          Except.ok (es1, tr))) := by
  refine ⟨?_, rfl, rfl, ?_⟩
  · intro s h1 h2
    unfold get_metric_function
    rw [if_neg h1, if_neg h2]
  · intro patience ub t es tr
    refine ⟨?_, ?_, ?_⟩
    · intro hc
      unfold EarlyStopping.on_epoch
      rw [hc]
      simp
    · intro hc hl
      unfold EarlyStopping.on_epoch
      rw [hc, hl]
      simp
    · intro hist hc hl hne hlen
      unfold EarlyStopping.on_epoch
      rw [hc, hl]
      obtain ⟨lst, hlst⟩ : ∃ lst, hist.getLast? = some lst := by
        cases h : hist.getLast? with
        | none => exact absurd (List.getLast?_eq_none_iff.mp h) hne
        | some l => exact ⟨l, rfl⟩
      simp only [Bool.true_eq_false, if_false, hlst, hlen, if_true]
      exact ⟨_, rfl⟩

/-- C9 witness: the theorem applied to the unknown metric name `f1`, to a
trainer state missing the target key `loss`, and to one holding both
`loss` and `epoch_loss` entries. -/
theorem C9_unknown_identifier_witness :
    get_metric_function "f1" =
      Except.error ("Unknown metric function: " ++ "f1" ++ ".") ∧
    EarlyStopping.on_epoch 3 true "loss" {}
        { state := [("epoch_loss", [1])], modelParams := [], abort := false } =
      Except.error ("loss" ++ " not found in trainer state.") ∧
    (∃ es1, EarlyStopping.on_epoch 3 true "loss" {}
        { state := [("loss", [1]), ("epoch_loss", [1])], modelParams := [],
          abort := false } =
      Except.ok (es1,
        { state := [("loss", [1]), ("epoch_loss", [1])], modelParams := [],
          abort := false })) :=
  ⟨C9_unknown_identifier.1 "f1" (by decide) (by decide),
   (C9_unknown_identifier.2.2.2 3 true "loss" {} _).1 (by decide),
   (C9_unknown_identifier.2.2.2 3 true "loss" {} _).2.2 [1] (by decide)
     (by decide) (by decide) (by decide)⟩

lemma flatten_slices {α : Type} (b k : ℕ) (x : List α) :
    ((List.range k).map (fun i => (x.drop (i * b)).take b)).flatten ++
        x.drop (k * b) = x := by
  induction k with
  | zero => simp
  | succ k ih =>
      rw [List.range_succ, List.map_append, List.map_cons, List.map_nil,
        List.flatten_concat, List.append_assoc]
      have h2 : x.drop ((k + 1) * b) = (x.drop (k * b)).drop b := by
        rw [List.drop_drop]
        congr 1
        ring
      rw [h2, List.take_append_drop]
      exact ih

lemma dl_facts (n bs : ℕ) (_hn : 1 ≤ n) (hbs : 1 ≤ bs) :
    (bs ≤ n ∧ min bs n = bs ∧ DataLoader.numSteps n bs = n / bs ∧
      DataLoader.numSteps n bs * min bs n + n % bs = n ∧ n % bs < bs) ∨
    (n < bs ∧ min bs n = n ∧ DataLoader.numSteps n bs = 1 ∧
      DataLoader.numSteps n bs * min bs n = n) := by
  by_cases h : bs ≤ n
  · left
    have hmin : min bs n = bs := min_eq_left h
    have hq : 1 ≤ n / bs := (Nat.one_le_div_iff (by omega)).mpr h
    have hsteps : DataLoader.numSteps n bs = n / bs := by
      unfold DataLoader.numSteps
      omega
    refine ⟨h, hmin, hsteps, ?_, Nat.mod_lt n (by omega)⟩
    rw [hsteps, hmin, Nat.mul_comm]
    exact Nat.div_add_mod n bs
  · right
    push_neg at h
    have hmin : min bs n = n := min_eq_right h.le
    have hsteps : DataLoader.numSteps n bs = 1 := by
      unfold DataLoader.numSteps
      have : n / bs = 0 := Nat.div_eq_of_lt h
      omega
    refine ⟨h, hmin, hsteps, ?_⟩
    rw [hsteps, hmin]
    exact Nat.one_mul n

lemma dl_ntrunc (n bs : ℕ) (hn : 1 ≤ n) (hbs : 1 ≤ bs) :
    (DataLoader.numSteps n bs * min bs n < n) ↔
      (bs ≤ n ∧ ¬ (n % bs = 0)) := by
  rcases dl_facts n bs hn hbs with ⟨h, _, _, hdm, hlt⟩ | ⟨h, _, _, heq⟩
  · generalize hT : DataLoader.numSteps n bs * min bs n = T at hdm ⊢
    constructor
    · intro hl
      exact ⟨h, by omega⟩
    · rintro ⟨-, hm⟩
      omega
  · constructor
    · intro hl
      omega
    · rintro ⟨hbs2, -⟩
      omega

lemma batches_false_eq {α : Type} (x : List α) (bs : ℕ) :
    DataLoader.batches x bs false =
      if DataLoader.numSteps x.length bs * min bs x.length < x.length then
        ((List.range (DataLoader.numSteps x.length bs)).map
          (fun i => (x.drop (i * min bs x.length)).take (min bs x.length))) ++
        [x.drop (DataLoader.numSteps x.length bs * min bs x.length)]
      else
        (List.range (DataLoader.numSteps x.length bs)).map
          (fun i => (x.drop (i * min bs x.length)).take (min bs x.length)) := by
  unfold DataLoader.batches
  simp

lemma dl_take_main {α : Type} (x : List α) (bs : ℕ) :
    (DataLoader.batches x bs false).take (DataLoader.numSteps x.length bs) =
      (List.range (DataLoader.numSteps x.length bs)).map
        (fun i => (x.drop (i * min bs x.length)).take (min bs x.length)) := by
  rw [batches_false_eq]
  split
  · exact List.take_left' (by simp)
  · exact List.take_of_length_le (le_of_eq (by simp))

lemma dl_main_sizes {α : Type} (x : List α) (bs : ℕ) (hn : 1 ≤ x.length)
    (hbs : 1 ≤ bs) :
    ∀ l ∈ (List.range (DataLoader.numSteps x.length bs)).map
        (fun i => (x.drop (i * min bs x.length)).take (min bs x.length)),
      l.length = min bs x.length := by
  intro l hl
  rw [List.mem_map] at hl
  obtain ⟨i, hi, rfl⟩ := hl
  rw [List.mem_range] at hi
  rw [List.length_take, List.length_drop]
  rcases dl_facts x.length bs hn hbs with ⟨h, hmin, hsteps, hdm, hmlt⟩ |
    ⟨h, hmin, hsteps, heq⟩
  · rw [hmin]
    rw [hsteps] at hi
    have h2 : (i + 1) * bs ≤ x.length / bs * bs :=
      Nat.mul_le_mul_right bs hi
    have h3 : x.length / bs * bs ≤ x.length := Nat.div_mul_le_self _ _
    have h4 : i * bs + bs ≤ x.length := by
      have h5 : (i + 1) * bs = i * bs + bs := Nat.succ_mul i bs
      omega
    generalize i * bs = P at h4 ⊢
    omega
  · rw [hsteps] at hi
    have hi0 : i = 0 := by omega
    subst hi0
    rw [hmin]
    simp

lemma dl_length {α : Type} (x : List α) (bs : ℕ) (hn : 1 ≤ x.length)
    (hbs : 1 ≤ bs) :
    (DataLoader.batches x bs false).length =
      if bs ≤ x.length ∧ ¬ (x.length % bs = 0)
      then DataLoader.numSteps x.length bs + 1
      else DataLoader.numSteps x.length bs := by
  rw [batches_false_eq]
  by_cases h : DataLoader.numSteps x.length bs * min bs x.length < x.length
  · rw [if_pos h, if_pos ((dl_ntrunc x.length bs hn hbs).mp h)]
    simp
  · rw [if_neg h, if_neg (fun hc => h ((dl_ntrunc x.length bs hn hbs).mpr hc))]
    simp

lemma dl_last {α : Type} (x : List α) (bs : ℕ) (hn : 1 ≤ x.length)
    (hbs : 1 ≤ bs) (h1 : bs ≤ x.length) (h2 : ¬ (x.length % bs = 0)) :
    (DataLoader.batches x bs false).getLastD [] =
        x.drop (x.length / bs * bs) ∧
      ((DataLoader.batches x bs false).getLastD []).length =
        x.length % bs := by
  have hlt : DataLoader.numSteps x.length bs * min bs x.length < x.length :=
    (dl_ntrunc x.length bs hn hbs).mpr ⟨h1, h2⟩
  rcases dl_facts x.length bs hn hbs with ⟨-, hmin, hsteps, hdm, -⟩ |
    ⟨hlt2, -, -, -⟩
  · rw [batches_false_eq, if_pos hlt, List.getLastD_concat]
    constructor
    · rw [hsteps, hmin]
    · rw [List.length_drop]
      rw [hsteps, hmin] at hdm ⊢
      generalize x.length / bs * bs = T at hdm ⊢
      omega
  · omega

lemma dl_flatten {α : Type} (x : List α) (bs : ℕ) :
    (DataLoader.batches x bs false).flatten = x := by
  rw [batches_false_eq]
  split
  · rw [List.flatten_concat]
    exact flatten_slices (min bs x.length) (DataLoader.numSteps x.length bs) x
  · next h =>
      have hj := flatten_slices (min bs x.length)
        (DataLoader.numSteps x.length bs) x
      rwa [List.drop_eq_nil_iff.mpr (le_of_not_lt h), List.append_nil] at hj

lemma dl_zip {α β : Type} (x : List α) (y : List β) (bs : ℕ)
    (hy : y.length = x.length) :
    DataLoader.batchesXY x y bs false =
      (DataLoader.batches x bs false).zip (DataLoader.batches y bs false) := by
  unfold DataLoader.batchesXY DataLoader.batches
  rw [hy]
  by_cases hC : DataLoader.numSteps x.length bs * min bs x.length < x.length
  · simp only [eq_self_iff_true, true_and, if_pos hC]
    rw [List.zip_append (by simp)]
    rw [List.zip_map']
    rfl
  · simp only [eq_self_iff_true, true_and, if_neg hC]
    exact (List.zip_map' _ _ _).symm

lemma dl_drop_true {α : Type} (x : List α) (bs : ℕ) :
    DataLoader.batches x bs true =
      (DataLoader.batches x bs false).take
        (DataLoader.numSteps x.length bs) := by
  rw [dl_take_main]
  unfold DataLoader.batches
  simp

/-- C10: one full iteration of the data loader with shuffling disabled
and `drop_remaining` false over `n >= 1` samples yields
`max(1, n // batch_size)` batches, each of size `min(batch_size, n)`, in
original sample order; when `batch_size <= n` and `batch_size` does not
divide `n` there is exactly one further final batch holding the
`n mod batch_size` remaining samples; the concatenation of all yielded
batches is the original data; the `(x, y)` pairs are index-aligned slices;
and with `drop_remaining` true the trailing partial batch is omitted. -/
theorem C10_dataloader_partition :
    ∀ (α β : Type) (x : List α) (y : List β) (bs : ℕ),
      1 ≤ x.length → 1 ≤ bs → y.length = x.length →
      ((DataLoader.batches x bs false).length =
        if bs ≤ x.length ∧ ¬ (x.length % bs = 0)
        then DataLoader.numSteps x.length bs + 1
        else DataLoader.numSteps x.length bs) ∧
      (∀ l ∈ (DataLoader.batches x bs false).take
          (DataLoader.numSteps x.length bs),
        l.length = min bs x.length) ∧
      (bs ≤ x.length → ¬ (x.length % bs = 0) →
        (DataLoader.batches x bs false).getLastD [] =
            x.drop (x.length / bs * bs) ∧
          ((DataLoader.batches x bs false).getLastD []).length =
            x.length % bs) ∧
      (DataLoader.batches x bs false).flatten = x ∧
      DataLoader.batchesXY x y bs false =
        (DataLoader.batches x bs false).zip
          (DataLoader.batches y bs false) ∧
      DataLoader.batches x bs true =
        (DataLoader.batches x bs false).take
          (DataLoader.numSteps x.length bs) := by
  intro α β x y bs hn hbs hy
  refine ⟨dl_length x bs hn hbs, ?_, dl_last x bs hn hbs, dl_flatten x bs,
    dl_zip x y bs hy, dl_drop_true x bs⟩
  intro l hl
  rw [dl_take_main] at hl
  exact dl_main_sizes x bs hn hbs l hl

/-- C10 witness: the theorem applied to five samples with batch size 2
(two full batches of size 2 and a final remainder batch of one sample). -/
theorem C10_dataloader_partition_witness :
    1 ≤ ([10, 11, 12, 13, 14] : List ℕ).length ∧ 1 ≤ 2 ∧
      ([0, 1, 2, 3, 4] : List ℕ).length =
        ([10, 11, 12, 13, 14] : List ℕ).length ∧
      (((DataLoader.batches ([10, 11, 12, 13, 14] : List ℕ) 2 false).length =
        if 2 ≤ ([10, 11, 12, 13, 14] : List ℕ).length ∧
            ¬ (([10, 11, 12, 13, 14] : List ℕ).length % 2 = 0)
        then DataLoader.numSteps ([10, 11, 12, 13, 14] : List ℕ).length 2 + 1
        else DataLoader.numSteps ([10, 11, 12, 13, 14] : List ℕ).length 2) ∧
      (∀ l ∈ (DataLoader.batches ([10, 11, 12, 13, 14] : List ℕ) 2 false).take
          (DataLoader.numSteps ([10, 11, 12, 13, 14] : List ℕ).length 2),
        l.length = min 2 ([10, 11, 12, 13, 14] : List ℕ).length) ∧
      (2 ≤ ([10, 11, 12, 13, 14] : List ℕ).length →
        ¬ (([10, 11, 12, 13, 14] : List ℕ).length % 2 = 0) →
        (DataLoader.batches ([10, 11, 12, 13, 14] : List ℕ) 2
              false).getLastD [] =
            ([10, 11, 12, 13, 14] : List ℕ).drop
              (([10, 11, 12, 13, 14] : List ℕ).length / 2 * 2) ∧
          ((DataLoader.batches ([10, 11, 12, 13, 14] : List ℕ) 2
              false).getLastD []).length =
            ([10, 11, 12, 13, 14] : List ℕ).length % 2) ∧
      (DataLoader.batches ([10, 11, 12, 13, 14] : List ℕ) 2 false).flatten =
        [10, 11, 12, 13, 14] ∧
      DataLoader.batchesXY ([10, 11, 12, 13, 14] : List ℕ)
          ([0, 1, 2, 3, 4] : List ℕ) 2 false =
        (DataLoader.batches ([10, 11, 12, 13, 14] : List ℕ) 2 false).zip
          (DataLoader.batches ([0, 1, 2, 3, 4] : List ℕ) 2 false) ∧
      DataLoader.batches ([10, 11, 12, 13, 14] : List ℕ) 2 true =
        (DataLoader.batches ([10, 11, 12, 13, 14] : List ℕ) 2 false).take
          (DataLoader.numSteps ([10, 11, 12, 13, 14] : List ℕ).length 2)) :=
  ⟨by decide, by decide, by decide,
    C10_dataloader_partition ℕ ℕ [10, 11, 12, 13, 14] [0, 1, 2, 3, 4] 2
      (by decide) (by decide) (by decide)⟩


